import Mathlib

/-!
Verification of the P2S MEV analysis scripts.

The Python sources embedded here:
* `scripts/analysis/inspect_mev.py`  — the `MEVInspector` detectors
  (miner payments, swaps, arbitrages, sandwich attacks) and `analyze_block`;
* `scripts/analysis/compare_mev.py`  — the `MEVComparator` statistics;
* `scripts/extract_ethereum_blocks.py` — the block normalizer in `fetch_block`.

Monetary amounts that Python holds as floats are modelled as exact
rationals (ℚ); divisions such as `value / 1e18` become exact rational
divisions.  Ethereum blocks are modelled as lists of well-formed
transaction records; the transaction receipt returned by
`get_transaction_receipt` for a transaction is modelled as an optional
`Receipt` carried by the transaction itself.
-/

set_option allowUnsafeReducibility true in
attribute [semireducible] Rat.inv Rat.mul Rat.add Rat.sub Rat.neg

/-- Wei amounts converted to ETH: `value / 1e18` in the source. -/
def ethOfWei (n : Nat) : ℚ := (n : ℚ) / 10 ^ 18

/-- A transaction receipt (the fields `inspect_mev.py` reads:
`status`, `gasUsed`, with `logs` never decoded beyond a no-op loop). -/
structure Receipt where
  status : Nat
  gasUsed : Nat
  deriving Repr, DecidableEq

/-- A transaction as `inspect_mev.py` reads it from a block dict:
`hash`, `from` (default `''`), `to` (`None` when absent), `value`,
`gasPrice` in wei.  `receipt` models the result of
`get_transaction_receipt` for this transaction's hash. -/
structure Tx where
  hash : String
  fromAddr : String
  toAddr : Option String
  value : Nat
  gasPrice : Nat
  receipt : Option Receipt
  deriving Repr, DecidableEq

/-- A block as `inspect_mev.py` reads it: `number`, `timestamp`,
`miner`, and the full transaction list in block order. -/
structure Block where
  number : Nat
  timestamp : Nat
  miner : String
  transactions : List Tx
  deriving Repr, DecidableEq

/-- The `MinerPayment` dataclass of `inspect_mev.py`. -/
structure MinerPayment where
  block_number : Nat
  miner_address : String
  coinbase_transfer : ℚ
  total_gas_fees : ℚ
  total_payment : ℚ
  deriving Repr, DecidableEq

/-- The `Swap` dataclass of `inspect_mev.py`. -/
structure Swap where
  tx_hash : String
  block_number : Nat
  sender : String
  protocol : String
  token_in : String
  token_out : String
  amount_in : ℚ
  amount_out : ℚ
  profit_potential : ℚ
  deriving Repr, DecidableEq

/-- The `Arbitrage` dataclass of `inspect_mev.py`. -/
structure Arbitrage where
  tx_hash : String
  block_number : Nat
  sender : String
  profit_token : String
  profit_amount : ℚ
  path : List String
  deriving Repr, DecidableEq

/-- The `SandwichAttack` dataclass of `inspect_mev.py`. -/
structure SandwichAttack where
  tx_hash : String
  block_number : Nat
  attacker : String
  target_tx : String
  front_run_tx : Option String
  back_run_tx : Option String
  profit : ℚ
  deriving Repr, DecidableEq

/-- The `MEVBlockAnalysis` dataclass of `inspect_mev.py`. -/
structure MEVBlockAnalysis where
  block_number : Nat
  timestamp : Nat
  network : String
  miner_payments : List MinerPayment
  swaps : List Swap
  arbitrages : List Arbitrage
  sandwich_attacks : List SandwichAttack
  total_mev : ℚ
  mev_per_tx : ℚ
  deriving Repr, DecidableEq

/-- The `DEX_ROUTERS` table of `MEVInspector`, in source order. -/
def DEX_ROUTERS : List (String × String) :=
  [("0x7a250d5630B4cF539739dF2C5dAcb4c659F2488D", "UniswapV2"),
   ("0xE592427A0AEce92De3Edee1F18E0157C05861564", "UniswapV3"),
   ("0xd9e1cE17f2641f24aE83637ab66a2cca9C378B9F", "SushiSwap"),
   ("0x11111112542D85B3EF69AE05771c2dCCff4fAa26", "1inch"),
   ("0x881D40237659C251811CEC9c364ef91dC08D300C", "Metamask")]

/-- The `MEVInspector.WETH` constant. -/
def WETH : String := "0xC02aaA39b223FE8D0A0e5C4F27eAD9083C756Cc2"

/-- Python `str.lower()` on the ASCII addresses used here: lower-case
every character. -/
def pyLower (s : String) : String := String.mk (s.data.map Char.toLower)

/-- The list `[r.lower() for r in self.DEX_ROUTERS.keys()]`. -/
def routerAddrsLower : List String := DEX_ROUTERS.map (fun p => pyLower p.1)

/-- Python `self.DEX_ROUTERS.get(to_address, "Unknown")` — a case-sensitive
dictionary lookup with default `"Unknown"`. -/
def routerLabel (to_address : String) : String :=
  ((DEX_ROUTERS.find? (fun p => p.1 == to_address)).map (fun p => p.2)).getD "Unknown"

/-! ### `MEVInspector.analyze_miner_payments` -/

/-- The gas-fee accumulation of `analyze_miner_payments`: for each
transaction with a receipt, add `gasUsed * gasPrice / 1e18`. -/
def total_gas_fees (b : Block) : ℚ :=
  (b.transactions.map (fun tx =>
    match tx.receipt with
    | some r => ((r.gasUsed * tx.gasPrice : Nat) : ℚ) / 10 ^ 18
    | none => 0)).sum

/-- The coinbase-transfer accumulation of `analyze_miner_payments`:
for each transaction with `tx.get('to') == miner`, add `value / 1e18`. -/
def coinbase_transfer (b : Block) : ℚ :=
  (b.transactions.map (fun tx =>
    if tx.toAddr = some b.miner then ethOfWei tx.value else 0)).sum

/-- The body of `MEVInspector.analyze_miner_payments`: one record when
`total_payment > 0`, else none. -/
def analyze_miner_payments (b : Block) : List MinerPayment :=
  let fees := total_gas_fees b
  let cb := coinbase_transfer b
  let total := cb + fees
  if total > 0 then
    [{ block_number := b.number
       miner_address := b.miner
       coinbase_transfer := cb
       total_gas_fees := fees
       total_payment := total }]
  else []

/-! ### `MEVInspector.detect_swaps` -/

/-- The body of the `detect_swaps` loop for one transaction: emit a
`Swap` when the recipient is a known router (case-insensitive
membership test) and the receipt exists with `status == 1`.  The log
decoding in the source is a no-op, so token identifiers stay
`"Unknown"`, amounts stay `0` and the profit potential stays `0`. -/
def swapFor (b : Block) (tx : Tx) : Option Swap :=
  let to_address := tx.toAddr.getD ""
  if to_address ≠ "" ∧ pyLower to_address ∈ routerAddrsLower then
    match tx.receipt with
    | some r =>
      if r.status = 1 then
        some { tx_hash := tx.hash
               block_number := b.number
               sender := tx.fromAddr
               protocol := routerLabel to_address
               token_in := "Unknown"
               token_out := "Unknown"
               amount_in := 0
               amount_out := 0
               profit_potential := 0 }
      else none
    | none => none
  else none

/-- The detector `MEVInspector.detect_swaps`. -/
def detect_swaps (b : Block) : List Swap :=
  b.transactions.filterMap (swapFor b)

/-! ### `MEVInspector.detect_arbitrages` -/

/-- First-occurrence deduplication, with the already-seen keys as
accumulator. -/
def dedupFirstAux (seen : List String) : List String → List String
  | [] => []
  | x :: xs =>
    if x ∈ seen then dedupFirstAux seen xs
    else x :: dedupFirstAux (x :: seen) xs

/-- First-occurrence deduplication: the key order of the Python
`defaultdict` built by inserting senders in block order. -/
def dedupFirst (l : List String) : List String := dedupFirstAux [] l

/-- Python `tx_by_sender[sender]`: the sender's transactions in block order. -/
def txsOfSender (txs : List Tx) (s : String) : List Tx :=
  txs.filter (fun tx => tx.fromAddr == s)

/-- The router-targeting transactions of a sender
(`swap_txs` in `detect_arbitrages`). -/
def arbSwapTxs (txs : List Tx) (s : String) : List Tx :=
  (txsOfSender txs s).filter (fun tx => pyLower (tx.toAddr.getD "") ∈ routerAddrsLower)

/-- The estimated arbitrage profit of a sender: `0.5%` of the value of
each router-targeting transaction whose receipt exists with status 1. -/
def arbProfit (txs : List Tx) (s : String) : ℚ :=
  ((arbSwapTxs txs s).map (fun tx =>
    match tx.receipt with
    | some r => if r.status = 1 then ethOfWei tx.value * (5 / 1000) else 0
    | none => 0)).sum

/-- The body of the `detect_arbitrages` loop for one sender. -/
def arbFor (b : Block) (s : String) : Option Arbitrage :=
  let txs := txsOfSender b.transactions s
  if 2 ≤ txs.length then
    let swap_txs := arbSwapTxs b.transactions s
    if 2 ≤ swap_txs.length then
      let profit := arbProfit b.transactions s
      if profit > 0 then
        some { tx_hash := (swap_txs.head?.map Tx.hash).getD ""
               block_number := b.number
               sender := s
               profit_token := WETH
               profit_amount := profit
               path := [] }
      else none
    else none
  else none

/-- The detector `MEVInspector.detect_arbitrages`. -/
def detect_arbitrages (b : Block) : List Arbitrage :=
  (dedupFirst (b.transactions.map Tx.fromAddr)).filterMap (arbFor b)

/-! ### `MEVInspector.detect_sandwich_attacks` -/

/-- Python truthiness of the `front_run` / `back_run` variables:
`None` and the empty string are falsy. -/
def pyTruthy (o : Option String) : Bool := o.getD "" ≠ ""

/-- Whether the transaction at index `j` has sender `s`
(`transactions[j].get('from', '') == target_sender`). -/
def senderMatchAt (txs : List Tx) (s : String) (j : Nat) : Bool :=
  ((txs.get? j).map Tx.fromAddr).getD "" == s

/-- The hash read at index `j` (`transactions[j].get('hash', '')`). -/
def hashAt (txs : List Tx) (j : Nat) : String :=
  ((txs.get? j).map Tx.hash).getD ""

/-- Scan a list of indices in order for the first same-sender
transaction, returning its hash — the `for j in range(...) ... break`
loops of `detect_sandwich_attacks`. -/
def scanSameSender (txs : List Tx) (idxs : List Nat) (s : String) : Option String :=
  (idxs.find? (senderMatchAt txs s)).map (hashAt txs)

/-- Backward-window indices `range(max(0, i-w), i)`. -/
def backWindow (i w : Nat) : List Nat := List.range' (i - w) (i - (i - w))

/-- Forward-window indices `range(i+1, min(len, i+w+1))`. -/
def frontWindow (n i w : Nat) : List Nat :=
  List.range' (i + 1) (min n (i + w + 1) - (i + 1))

/-- The body of the `detect_sandwich_attacks` loop at target index `i`,
with the window size `w` (fixed to `5` in the source) made explicit. -/
def sandwichAt (b : Block) (w : Nat) (i : Nat) : Option SandwichAttack :=
  match b.transactions.get? i with
  | none => none
  | some target_tx =>
    if ((target_tx.gasPrice : ℚ) / 10 ^ 9) > 50 then
      let s := target_tx.fromAddr
      let front_run := scanSameSender b.transactions (backWindow i w) s
      let back_run :=
        scanSameSender b.transactions (frontWindow b.transactions.length i w) s
      if pyTruthy front_run ∨ pyTruthy back_run then
        some { tx_hash := target_tx.hash
               block_number := b.number
               attacker := s
               target_tx := target_tx.hash
               front_run_tx := if pyTruthy front_run then front_run else none
               back_run_tx := if pyTruthy back_run then back_run else none
               profit := ethOfWei target_tx.value * (1 / 100) }
      else none
    else none

/-- The detector `MEVInspector.detect_sandwich_attacks` with window size `w`. -/
def detect_sandwich_attacks (w : Nat) (b : Block) : List SandwichAttack :=
  (List.range b.transactions.length).filterMap (sandwichAt b w)

/-! ### `MEVInspector.analyze_block` -/

/-- The analysis `MEVInspector.analyze_block` on an already-fetched block. -/
def analyze_block (network : String) (b : Block) : MEVBlockAnalysis :=
  let miner_payments := analyze_miner_payments b
  let swaps := detect_swaps b
  let arbitrages := detect_arbitrages b
  let sandwich_attacks := detect_sandwich_attacks 5 b
  let total_mev :=
    (miner_payments.map MinerPayment.total_payment).sum +
    (swaps.map Swap.profit_potential).sum +
    (arbitrages.map Arbitrage.profit_amount).sum +
    (sandwich_attacks.map SandwichAttack.profit).sum
  let tx_count := b.transactions.length
  { block_number := b.number
    timestamp := b.timestamp
    network := network
    miner_payments := miner_payments
    swaps := swaps
    arbitrages := arbitrages
    sandwich_attacks := sandwich_attacks
    total_mev := total_mev
    mev_per_tx := if tx_count > 0 then total_mev / tx_count else 0 }

/-! ### `MEVComparator` (`compare_mev.py`)

The comparator works on the saved JSON: each block analysis contributes
its `total_mev`, its `mev_per_tx` and, per MEV type, the list of the
payment/profit values of its records. -/

/-- One entry of the `analyses` array of a saved inspection file, with
exactly the fields `compare_mev.py` reads. -/
structure AnalysisRecord where
  total_mev : ℚ
  mev_per_tx : ℚ
  miner_payments : List ℚ
  swaps : List ℚ
  arbitrages : List ℚ
  sandwich_attacks : List ℚ
  deriving Repr, DecidableEq

/-- Python `statistics.mean` guarded by `if values else 0` as in the source. -/
def pyMean (l : List ℚ) : ℚ :=
  if l = [] then 0 else l.sum / l.length

/-- Insertion into a sorted list (ascending). -/
def insertSorted (x : ℚ) : List ℚ → List ℚ
  | [] => [x]
  | y :: ys => if x ≤ y then x :: y :: ys else y :: insertSorted x ys

/-- Ascending insertion sort, used to model `statistics.median`. -/
def sortRat (l : List ℚ) : List ℚ := l.foldr insertSorted []

/-- Python `statistics.median` guarded by `if values else 0` as in the source:
middle element for odd length, mean of the two middle elements for even
length. -/
def pyMedian (l : List ℚ) : ℚ :=
  let s := sortRat l
  let n := s.length
  if n = 0 then 0
  else if n % 2 = 1 then (s.get? (n / 2)).getD 0
  else (((s.get? (n / 2 - 1)).getD 0) + ((s.get? (n / 2)).getD 0)) / 2

/-- The dictionary built by `MEVComparator.calculate_statistics`. -/
structure Stats where
  total_blocks : Nat
  total_mev : ℚ
  avg_mev_per_block : ℚ
  avg_mev_per_tx : ℚ
  median_mev_per_tx : ℚ
  miner_payments : Nat
  swaps : Nat
  arbitrages : Nat
  sandwich_attacks : Nat
  total_mev_activities : Nat
  mev_activities_per_block : ℚ
  deriving Repr, DecidableEq

/-- The strictly positive `mev_per_tx` sample taken by
`calculate_statistics`. -/
def mev_per_tx_values (analyses : List AnalysisRecord) : List ℚ :=
  (analyses.map AnalysisRecord.mev_per_tx).filter (fun v => v > 0)

/-- The body of `MEVComparator.calculate_statistics`: `none` models the empty
dictionary returned when `analyses` is empty. -/
def calculate_statistics (analyses : List AnalysisRecord) : Option Stats :=
  if analyses = [] then none
  else
    let total_mev := (analyses.map AnalysisRecord.total_mev).sum
    let vals := mev_per_tx_values analyses
    let miner_payments := (analyses.map (fun a => a.miner_payments.length)).sum
    let swaps := (analyses.map (fun a => a.swaps.length)).sum
    let arbitrages := (analyses.map (fun a => a.arbitrages.length)).sum
    let sandwich_attacks := (analyses.map (fun a => a.sandwich_attacks.length)).sum
    let total_txs := (analyses.map (fun a =>
      a.miner_payments.length + a.swaps.length +
      a.arbitrages.length + a.sandwich_attacks.length)).sum
    some
      { total_blocks := analyses.length
        total_mev := total_mev
        avg_mev_per_block := total_mev / analyses.length
        avg_mev_per_tx := pyMean vals
        median_mev_per_tx := pyMedian vals
        miner_payments := miner_payments
        swaps := swaps
        arbitrages := arbitrages
        sandwich_attacks := sandwich_attacks
        total_mev_activities := total_txs
        mev_activities_per_block := (total_txs : ℚ) / analyses.length }

/-- The key/value pairs of the statistics dictionary, in the insertion
order of `calculate_statistics` (every value is numeric).  The empty
dictionary of the empty-analyses case becomes the empty list. -/
def stats_kv (analyses : List AnalysisRecord) : List (String × ℚ) :=
  match calculate_statistics analyses with
  | none => []
  | some st =>
    [("total_blocks", (st.total_blocks : ℚ)),
     ("total_mev", st.total_mev),
     ("avg_mev_per_block", st.avg_mev_per_block),
     ("avg_mev_per_tx", st.avg_mev_per_tx),
     ("median_mev_per_tx", st.median_mev_per_tx),
     ("miner_payments", (st.miner_payments : ℚ)),
     ("swaps", (st.swaps : ℚ)),
     ("arbitrages", (st.arbitrages : ℚ)),
     ("sandwich_attacks", (st.sandwich_attacks : ℚ)),
     ("total_mev_activities", (st.total_mev_activities : ℚ)),
     ("mev_activities_per_block", st.mev_activities_per_block)]

/-- One entry of the `differences` dictionary of `compare_statistics`. -/
structure DiffEntry where
  ethereum : ℚ
  p2s : ℚ
  reduction : ℚ
  reduction_abs : ℚ
  deriving Repr, DecidableEq

/-- Python `p2s_stats.get(key, 0)`. -/
def statLookup (kv : List (String × ℚ)) (key : String) : ℚ :=
  ((kv.find? (fun p => p.1 == key)).map (fun p => p.2)).getD 0

/-- The `differences` dictionary of `MEVComparator.compare_statistics`:
a metric contributes an entry only when its Ethereum value is strictly
positive. -/
def compare_differences (eth p2s : List AnalysisRecord) : List (String × DiffEntry) :=
  (stats_kv eth).filterMap (fun kv =>
    let eth_val := kv.2
    if eth_val > 0 then
      let p2s_val := statLookup (stats_kv p2s) kv.1
      some (kv.1,
        { ethereum := eth_val
          p2s := p2s_val
          reduction := ((eth_val - p2s_val) / eth_val) * 100
          reduction_abs := eth_val - p2s_val })
    else none)

/-- Lookup in the `differences` dictionary
(`comparison['differences'].get(key)`). -/
def diffLookup (eth p2s : List AnalysisRecord) (key : String) : Option DiffEntry :=
  ((compare_differences eth p2s).find? (fun p => p.1 == key)).map (fun p => p.2)

/-- The four MEV activity types of `analyze_mev_types`. -/
inductive MevType | miner_payments | swaps | arbitrages | sandwich_attacks
  deriving Repr, DecidableEq

/-- The per-type value lists accumulated by `analyze_mev_types`
(`total_payment`, `profit_potential`, `profit_amount`, `profit`). -/
def typeValues (analyses : List AnalysisRecord) : MevType → List ℚ
  | .miner_payments => analyses.flatMap AnalysisRecord.miner_payments
  | .swaps => analyses.flatMap AnalysisRecord.swaps
  | .arbitrages => analyses.flatMap AnalysisRecord.arbitrages
  | .sandwich_attacks => analyses.flatMap AnalysisRecord.sandwich_attacks

/-- One side (`ethereum` / `p2s`) of a per-type entry. -/
structure SideStats where
  count : Nat
  total : ℚ
  avg : ℚ
  median : ℚ
  deriving Repr, DecidableEq

/-- The `reduction` sub-dictionary of a per-type entry. -/
structure TypeReduction where
  count : Int
  count_pct : ℚ
  total : ℚ
  total_pct : ℚ
  deriving Repr, DecidableEq

/-- A per-type entry of the `analyze_mev_types` result. -/
structure TypeCompare where
  ethereum : SideStats
  p2s : SideStats
  reduction : TypeReduction
  deriving Repr, DecidableEq

/-- The body of `MEVComparator.analyze_mev_types` restricted to one type. -/
def analyze_mev_type (eth p2s : List AnalysisRecord) (t : MevType) : TypeCompare :=
  let eth_values := typeValues eth t
  let p2s_values := typeValues p2s t
  let eth_total := eth_values.sum
  let p2s_total := p2s_values.sum
  { ethereum :=
      { count := eth_values.length
        total := eth_total
        avg := pyMean eth_values
        median := pyMedian eth_values }
    p2s :=
      { count := p2s_values.length
        total := p2s_total
        avg := pyMean p2s_values
        median := pyMedian p2s_values }
    reduction :=
      { count := (eth_values.length : Int) - (p2s_values.length : Int)
        count_pct :=
          if eth_values = [] then 0
          else (((eth_values.length : ℚ) - (p2s_values.length : ℚ)) /
                (eth_values.length : ℚ)) * 100
        total := eth_total - p2s_total
        total_pct :=
          if eth_total > 0 then ((eth_total - p2s_total) / eth_total) * 100
          else 0 } }

/-- The full `MEVComparator.analyze_mev_types`: all four entries. -/
def analyze_mev_types (eth p2s : List AnalysisRecord) : List TypeCompare :=
  [MevType.miner_payments, MevType.swaps,
   MevType.arbitrages, MevType.sandwich_attacks].map (analyze_mev_type eth p2s)

/-! ### `EthereumBlockExtractor.fetch_block` (`extract_ethereum_blocks.py`)

The pure normalization inside `fetch_block`: the raw Blockscout JSON is
turned into a processed block dict.  The whole transaction loop runs
inside one `try`, so any exception while normalizing a transaction
aborts the loop; `fetch_block` then falls back to
`generate_synthetic_block`.  `none` models that fallback. -/

/-- A raw numeric field of a Blockscout transaction: a native integer,
a string, or absent. -/
inductive RawField
  | rInt (n : Nat)
  | rStr (s : String)
  | absent
  deriving Repr, DecidableEq

/-- A raw Blockscout transaction as read by `fetch_block`
(`tx['from']` / `tx['to']` are dicts whose `hash` field is kept). -/
structure RawTx where
  hash : Option String
  fromHash : Option String
  toHash : Option String
  value : RawField
  gas : RawField
  gas_price : RawField
  nonce : Option Nat
  deriving Repr, DecidableEq

/-- A raw Blockscout block as read by `fetch_block`. -/
structure RawBlock where
  timestamp : Option Nat
  size : Option Nat
  base_fee_per_gas : Option Nat
  gas_used : Option Nat
  gas_limit : Option Nat
  transactions : Option (List RawTx)
  deriving Repr, DecidableEq

/-- A normalized transaction dict appended by the `fetch_block` loop. -/
structure ExtTx where
  hash : String
  fromAddr : String
  toAddr : String
  value : Nat
  gas : Nat
  gasPrice : Nat
  nonce : Nat
  timestamp : Nat
  deriving Repr, DecidableEq

/-- The processed block dict built by `fetch_block`. -/
structure ProcessedBlock where
  block_number : Nat
  timestamp : Nat
  transaction_count : Nat
  block_size : Nat
  base_fee : Nat
  gas_used : Nat
  gas_limit : Nat
  transactions : List ExtTx
  deriving Repr, DecidableEq

/-- The numeric value of a hexadecimal digit. -/
def hexDigit? (c : Char) : Option Nat :=
  if '0' ≤ c ∧ c ≤ '9' then some (c.toNat - '0'.toNat)
  else if 'a' ≤ c ∧ c ≤ 'f' then some (c.toNat - 'a'.toNat + 10)
  else if 'A' ≤ c ∧ c ≤ 'F' then some (c.toNat - 'A'.toNat + 10)
  else none

/-- Accumulating base-16 digit parser; fails on a non-hex character. -/
def parseHexDigits : Nat → List Char → Option Nat
  | acc, [] => some acc
  | acc, c :: cs =>
    match hexDigit? c with
    | some d => parseHexDigits (acc * 16 + d) cs
    | none => none

/-- Python `int(s, 16)` on a non-negative literal: an optional
leading `0x` or `0X` marker followed by at least one hex digit;
anything else raises (`none`). -/
def int16? (s : String) : Option Nat :=
  let cs :=
    match s.data with
    | '0' :: 'x' :: rest => rest
    | '0' :: 'X' :: rest => rest
    | other => other
  match cs with
  | [] => none
  | _ => parseHexDigits 0 cs

/-- Python `int(tx.get('value', '0'), 16) if isinstance(tx.get('value'), str)
else tx.get('value', 0)`: strings are parsed as hex (raising on a bad
literal), integers pass through, a missing field defaults to `0`. -/
def coerceValue : RawField → Option Nat
  | .rStr s => int16? s
  | .rInt n => some n
  | .absent => some 0

/-- Same for `gas`, whose missing-field default is `21000`. -/
def coerceGas : RawField → Option Nat
  | .rStr s => int16? s
  | .rInt n => some n
  | .absent => some 21000

/-- Same for `gas_price`, whose missing-field default is
`20000000000` wei (20 gwei). -/
def coerceGasPrice : RawField → Option Nat
  | .rStr s => int16? s
  | .rInt n => some n
  | .absent => some 20000000000

/-- Normalize one raw transaction (one iteration of the `fetch_block`
loop); `none` when a numeric coercion raises. -/
def normalizeTx (block_timestamp : Nat) (tx : RawTx) : Option ExtTx := do
  let value ← coerceValue tx.value
  let gas ← coerceGas tx.gas
  let gasPrice ← coerceGasPrice tx.gas_price
  pure { hash := tx.hash.getD ""
         fromAddr := tx.fromHash.getD ""
         toAddr := match tx.toHash with | some h => h | none => ""
         value := value
         gas := gas
         gasPrice := gasPrice
         nonce := tx.nonce.getD 0
         timestamp := block_timestamp }

/-- The `fetch_block` transaction loop: the first exception aborts the
whole extraction (`none`), otherwise all transactions are kept in
order. -/
def extractTransactions (block_timestamp : Nat) : List RawTx → Option (List ExtTx)
  | [] => some []
  | tx :: rest =>
    match normalizeTx block_timestamp tx with
    | none => none
    | some nt => (extractTransactions block_timestamp rest).map (fun l => nt :: l)

/-- The pure part of `EthereumBlockExtractor.fetch_block` on a fetched
raw block (`now` stands for `int(time.time())`): `none` models the
exception path that falls back to `generate_synthetic_block`. -/
def process_block (now block_number : Nat) (bd : RawBlock) : Option ProcessedBlock :=
  let ts := bd.timestamp.getD now
  let rawTxs := (bd.transactions.getD []).take 200
  match extractTransactions ts rawTxs with
  | none => none
  | some txs =>
    some { block_number := block_number
           timestamp := ts
           transaction_count := txs.length
           block_size := bd.size.getD 0
           base_fee := bd.base_fee_per_gas.getD 0
           gas_used := bd.gas_used.getD 0
           gas_limit := bd.gas_limit.getD 30000000
           transactions := txs }

/-- Modelled from the spec: the drop-malformed-transactions behaviour
the specification describes for the normalizer — "a malformed
transaction is dropped, never aborts the whole block".  Each raw
transaction that fails to normalize is skipped and the rest are kept. -/
def extractTransactions_dropMalformed (block_timestamp : Nat)
    (txs : List RawTx) : List ExtTx :=
  txs.filterMap (normalizeTx block_timestamp)

/-! ## Verified properties -/

/-- An empty block, used to witness the degenerate cases. -/
def emptyBlock : Block :=
  { number := 0, timestamp := 0, miner := "0xMiner", transactions := [] }

/-- Claim C1. For every block, `analyze_block` returns `total_mev` equal
to the sum of all payment/profit fields across the four detector
outputs (miner `total_payment` + swap `profit_potential` + arbitrage
`profit_amount` + sandwich `profit`), and `mev_per_tx` equal to
`total_mev` divided by the transaction count, `0` when the count is
`0`; a block with no transactions yields empty detector outputs,
`total_mev = 0` and `mev_per_tx = 0`. -/
theorem c1_analyze_block_totals (network : String) (b : Block) :
    (analyze_block network b).total_mev =
      ((analyze_block network b).miner_payments.map MinerPayment.total_payment).sum +
      ((analyze_block network b).swaps.map Swap.profit_potential).sum +
      ((analyze_block network b).arbitrages.map Arbitrage.profit_amount).sum +
      ((analyze_block network b).sandwich_attacks.map SandwichAttack.profit).sum ∧
    (analyze_block network b).miner_payments = analyze_miner_payments b ∧
    (analyze_block network b).swaps = detect_swaps b ∧
    (analyze_block network b).arbitrages = detect_arbitrages b ∧
    (analyze_block network b).sandwich_attacks = detect_sandwich_attacks 5 b ∧
    (analyze_block network b).mev_per_tx =
      (if 0 < b.transactions.length
       then (analyze_block network b).total_mev / (b.transactions.length : ℚ)
       else 0) ∧
    (b.transactions = [] →
      (analyze_block network b).miner_payments = [] ∧
      (analyze_block network b).swaps = [] ∧
      (analyze_block network b).arbitrages = [] ∧
      (analyze_block network b).sandwich_attacks = [] ∧
      (analyze_block network b).total_mev = 0 ∧
      (analyze_block network b).mev_per_tx = 0) := by
  refine ⟨rfl, rfl, rfl, rfl, rfl, rfl, fun h => ?_⟩
  have h1 : analyze_miner_payments b = [] := by
    simp [analyze_miner_payments, total_gas_fees, coinbase_transfer, h]
  have h2 : detect_swaps b = [] := by simp [detect_swaps, h]
  have h3 : detect_arbitrages b = [] := by
    simp [detect_arbitrages, h, dedupFirst, dedupFirstAux]
  have h4 : detect_sandwich_attacks 5 b = [] := by
    simp [detect_sandwich_attacks, h]
  refine ⟨h1, h2, h3, h4, ?_, ?_⟩ <;>
    simp [analyze_block, h, h1, h2, h3, h4]

/-- Witness for C1 at the empty block. -/
theorem c1_witness :
    (analyze_block "ethereum" emptyBlock).total_mev = 0 ∧
    (analyze_block "ethereum" emptyBlock).mev_per_tx = 0 := by
  have h := (c1_analyze_block_totals "ethereum" emptyBlock).2.2.2.2.2.2 rfl
  exact ⟨h.2.2.2.2.1, h.2.2.2.2.2⟩

/-- A one-transaction block whose transaction pays gas, to witness a
positive miner payment (receipt: success, 21000 gas at 20 gwei). -/
def minerBlock : Block :=
  { number := 12, timestamp := 0, miner := "0xMiner",
    transactions :=
      [{ hash := "0xaa", fromAddr := "0xA", toAddr := some "0xB",
         value := 0, gasPrice := 20000000000,
         receipt := some { status := 1, gasUsed := 21000 } }] }

/-- Claim C6. The miner-payment detector emits at most one record per
block; its `total_payment` is `coinbase_transfer + total_gas_fees`
(gas fees accumulated as `gasUsed * gasPrice` over all transactions
with receipts, coinbase transfers accumulated from transactions whose
recipient equals the block's miner); a record is emitted iff that
combined total is strictly positive. -/
theorem c6_miner_payment_record (b : Block) :
    (analyze_miner_payments b).length ≤ 1 ∧
    (∀ p ∈ analyze_miner_payments b,
      p.coinbase_transfer = coinbase_transfer b ∧
      p.total_gas_fees = total_gas_fees b ∧
      p.total_payment = coinbase_transfer b + total_gas_fees b ∧
      p.miner_address = b.miner ∧ p.block_number = b.number) ∧
    (analyze_miner_payments b ≠ [] ↔ 0 < coinbase_transfer b + total_gas_fees b) := by
  unfold analyze_miner_payments
  by_cases h : 0 < coinbase_transfer b + total_gas_fees b
  · simp only [if_pos h]
    refine ⟨by simp, ?_, by simpa using h⟩
    intro p hp
    simp only [List.mem_singleton] at hp
    subst hp
    exact ⟨rfl, rfl, rfl, rfl, rfl⟩
  · simp only [if_neg h]
    exact ⟨by simp, by simp, by simpa using h⟩

/-- Witness for C6 on a concrete block with a positive gas fee. -/
theorem c6_witness :
    analyze_miner_payments minerBlock ≠ [] ∧
    (analyze_miner_payments minerBlock).length ≤ 1 :=
  ⟨(c6_miner_payment_record minerBlock).2.2.mpr (by decide),
   (c6_miner_payment_record minerBlock).1⟩

/-- A successful receipt for concrete examples. -/
def okReceipt : Receipt := { status := 1, gasUsed := 21000 }

/-- A block whose only transaction targets the UniswapV2 router address
written in all-lowercase, with a successful receipt. -/
def lowercaseRouterBlock : Block :=
  { number := 3, timestamp := 0, miner := "0xMiner",
    transactions :=
      [{ hash := "0xw1", fromAddr := "0xA",
         toAddr := some "0x7a250d5630b4cf539739df2c5dacb4c659f2488d",
         value := 0, gasPrice := 1, receipt := some okReceipt }] }

/-- Claim C7, counterexample. A transaction whose recipient matches the
UniswapV2 router entry case-insensitively (but not byte-for-byte) is
recorded as a swap, yet its protocol label is `"Unknown"`, not the
router table's label `"UniswapV2"` for that destination: the
case-insensitive membership test admits the transaction while the
case-sensitive dictionary lookup misses the label. -/
theorem c7_counterexample :
    pyLower "0x7a250d5630b4cf539739df2c5dacb4c659f2488d" =
      pyLower "0x7a250d5630B4cF539739dF2C5dAcb4c659F2488D" ∧
    ("0x7a250d5630B4cF539739dF2C5dAcb4c659F2488D", "UniswapV2") ∈ DEX_ROUTERS ∧
    (detect_swaps lowercaseRouterBlock).map Swap.protocol = ["Unknown"] := by
  decide

/-- Claim C7, amended. A transaction is recorded as a swap iff its
recipient is non-empty, lower-cases into the router table and its
receipt indicates success; the recorded protocol label comes from a
*case-sensitive* lookup of the destination address (so it is the
table's label only when the address matches a table key exactly, and
`"Unknown"` otherwise), and amounts are never inferred, so token
identifiers are `"Unknown"` and the profit potential is `0` while the
swap is still recorded. -/
theorem c7_swap_detector (b : Block) (tx : Tx) (r : Swap) :
    (r ∈ detect_swaps b ↔ ∃ t ∈ b.transactions, swapFor b t = some r) ∧
    (swapFor b tx = some r ↔
      (tx.toAddr.getD "" ≠ "" ∧
       pyLower (tx.toAddr.getD "") ∈ routerAddrsLower ∧
       (∃ rc, tx.receipt = some rc ∧ rc.status = 1) ∧
       r = { tx_hash := tx.hash
             block_number := b.number
             sender := tx.fromAddr
             protocol := routerLabel (tx.toAddr.getD "")
             token_in := "Unknown"
             token_out := "Unknown"
             amount_in := 0
             amount_out := 0
             profit_potential := 0 })) := by
  constructor
  · exact List.mem_filterMap
  · unfold swapFor
    by_cases hc : tx.toAddr.getD "" ≠ "" ∧ pyLower (tx.toAddr.getD "") ∈ routerAddrsLower
    · simp only [if_pos hc]
      cases hrc : tx.receipt with
      | none => simp [hc]
      | some rc =>
        by_cases hs : rc.status = 1
        · simp only [if_pos hs]
          constructor
          · intro h
            exact ⟨hc.1, hc.2, ⟨rc, rfl, hs⟩, (Option.some_inj.mp h).symm⟩
          · rintro ⟨-, -, -, rfl⟩
            rfl
        · simp only [if_neg hs]
          constructor
          · intro h; exact absurd h (by simp)
          · rintro ⟨-, -, ⟨rc', hrc', hs'⟩, -⟩
            rw [Option.some_inj.mp hrc'] at hs
            exact absurd hs' hs
    · simp only [if_neg hc]
      constructor
      · intro h; exact absurd h (by simp)
      · rintro ⟨h1, h2, -, -⟩
        exact absurd ⟨h1, h2⟩ hc

/-- A swap transaction whose recipient matches the table
byte-for-byte. -/
def exactRouterTx : Tx :=
  { hash := "0xw2", fromAddr := "0xA",
    toAddr := some "0x7a250d5630B4cF539739dF2C5dAcb4c659F2488D",
    value := 0, gasPrice := 1, receipt := some okReceipt }

/-- Witness for C7 on a concrete exact-case router transaction. -/
theorem c7_witness :
    swapFor lowercaseRouterBlock exactRouterTx =
      some { tx_hash := "0xw2", block_number := 3, sender := "0xA",
             protocol := "UniswapV2", token_in := "Unknown",
             token_out := "Unknown", amount_in := 0, amount_out := 0,
             profit_potential := 0 } :=
  (c7_swap_detector lowercaseRouterBlock exactRouterTx _).2.mpr
    ⟨by decide, by decide, ⟨okReceipt, rfl, rfl⟩, by decide⟩

/-! Helper lemmas on first-occurrence deduplication. -/

theorem mem_dedupFirstAux (l : List String) :
    ∀ (seen : List String) (s : String),
      s ∈ dedupFirstAux seen l ↔ s ∈ l ∧ s ∉ seen := by
  induction l with
  | nil => intro seen s; simp [dedupFirstAux]
  | cons x xs ih =>
    intro seen s
    by_cases hx : x ∈ seen
    · rw [dedupFirstAux, if_pos hx, ih]
      constructor
      · rintro ⟨h1, h2⟩; exact ⟨List.mem_cons_of_mem _ h1, h2⟩
      · rintro ⟨h1, h2⟩
        rcases List.mem_cons.mp h1 with rfl | h1
        · exact absurd hx h2
        · exact ⟨h1, h2⟩
    · rw [dedupFirstAux, if_neg hx, List.mem_cons, ih]
      constructor
      · rintro (rfl | ⟨h1, h2⟩)
        · exact ⟨List.mem_cons_self _ _, hx⟩
        · exact ⟨List.mem_cons_of_mem _ h1, fun hs => h2 (List.mem_cons_of_mem _ hs)⟩
      · rintro ⟨h1, h2⟩
        rcases List.mem_cons.mp h1 with rfl | h1
        · exact Or.inl rfl
        · by_cases hxs : s = x
          · exact Or.inl hxs
          · exact Or.inr ⟨h1, fun hs => by
              rcases List.mem_cons.mp hs with h | h
              · exact hxs h
              · exact h2 h⟩

theorem nodup_dedupFirstAux (l : List String) :
    ∀ seen : List String, (dedupFirstAux seen l).Nodup := by
  induction l with
  | nil => intro seen; simp [dedupFirstAux]
  | cons x xs ih =>
    intro seen
    by_cases hx : x ∈ seen
    · rw [dedupFirstAux, if_pos hx]; exact ih seen
    · rw [dedupFirstAux, if_neg hx]
      refine List.nodup_cons.mpr ⟨?_, ih (x :: seen)⟩
      intro hmem
      exact ((mem_dedupFirstAux xs (x :: seen) x).mp hmem).2 (List.mem_cons_self _ _)

theorem mem_dedupFirst (l : List String) (s : String) :
    s ∈ dedupFirst l ↔ s ∈ l := by
  rw [dedupFirst, mem_dedupFirstAux]
  simp

theorem nodup_dedupFirst (l : List String) : (dedupFirst l).Nodup :=
  nodup_dedupFirstAux l []

/-- Records produced by `arbFor` carry the sender they were produced
for. -/
theorem arbFor_sender (b : Block) (s : String) (r : Arbitrage) :
    arbFor b s = some r → r.sender = s := by
  simp only [arbFor]
  intro h
  split_ifs at h with h1 h2 h3
  rw [← Option.some_inj.mp h]

/-- Filtering the records of a key-indexed `filterMap` down to one key
keeps exactly that key's output, when keys are distinct. -/
theorem filterMap_filter_key (f : String → Option Arbitrage)
    (hf : ∀ s r, f s = some r → r.sender = s) (s : String) :
    ∀ keys : List String, keys.Nodup →
      ((keys.filterMap f).filter (fun r => r.sender == s)) =
        if s ∈ keys then (f s).toList else [] := by
  intro keys
  induction keys with
  | nil => simp
  | cons k ks ih =>
    intro hnd
    rcases List.nodup_cons.mp hnd with ⟨hk, hnd'⟩
    rw [List.filterMap_cons]
    cases hfk : f k with
    | none =>
      rw [ih hnd']
      by_cases hs : s = k
      · subst hs
        rw [if_neg hk, hfk]
        simp
      · simp [List.mem_cons, hs]
    | some r =>
      have hr := hf k r hfk
      rw [List.filter_cons]
      by_cases hs : s = k
      · subst hs
        rw [ih hnd']
        simp [hr, hfk, if_neg hk]
      · rw [ih hnd']
        have : (r.sender == s) = false := by
          simp [hr]; exact fun h => hs h.symm
        simp [this, List.mem_cons, hs]

/-- The scenario block for C5: sender `0xS` has three transactions, two
of which target known routers, both successful, with values 1 ETH and
2 ETH. -/
def arbScenarioBlock : Block :=
  { number := 7, timestamp := 0, miner := "0xMiner",
    transactions :=
      [{ hash := "0xt1", fromAddr := "0xS",
         toAddr := some "0x7a250d5630B4cF539739dF2C5dAcb4c659F2488D",
         value := 1000000000000000000, gasPrice := 20000000000,
         receipt := some okReceipt },
       { hash := "0xt2", fromAddr := "0xS", toAddr := none,
         value := 0, gasPrice := 20000000000, receipt := some okReceipt },
       { hash := "0xt3", fromAddr := "0xS",
         toAddr := some "0xE592427A0AEce92De3Edee1F18E0157C05861564",
         value := 2000000000000000000, gasPrice := 20000000000,
         receipt := some okReceipt }] }

/-- A block whose sender `0xS` qualifies (two router-targeting
transactions, successful receipts) but with zero transferred value, so
the estimated profit is zero. -/
def zeroValueArbBlock : Block :=
  { number := 8, timestamp := 0, miner := "0xMiner",
    transactions :=
      [{ hash := "0xz1", fromAddr := "0xS",
         toAddr := some "0x7a250d5630B4cF539739dF2C5dAcb4c659F2488D",
         value := 0, gasPrice := 20000000000, receipt := some okReceipt },
       { hash := "0xz2", fromAddr := "0xS",
         toAddr := some "0xE592427A0AEce92De3Edee1F18E0157C05861564",
         value := 0, gasPrice := 20000000000, receipt := some okReceipt }] }

/-- Claim C5, counterexample. A sender with two router-targeting,
successful transactions (so two or more of two or more) but zero
transferred value gets *no* Arbitrage record: the detector only emits
when the estimated profit is strictly positive, against the claim that
every such sender yields exactly one record. -/
theorem c5_counterexample :
    2 ≤ (txsOfSender zeroValueArbBlock.transactions "0xS").length ∧
    2 ≤ (arbSwapTxs zeroValueArbBlock.transactions "0xS").length ∧
    detect_arbitrages zeroValueArbBlock = [] := by decide

/-- Claim C5, amended. For every sender with at least two transactions
of which at least two target known routers, the detector emits exactly
one Arbitrage record iff the estimated profit — 0.5% of the summed
value of the router-targeting transactions with successful receipts —
is strictly positive (and no record otherwise); the record is anchored
to the first qualifying transaction's hash and carries that profit.
The spec's concrete scenario (values 1 ETH and 2 ETH, successful)
yields exactly one record with `profit_amount = (1+2) × 0.005`. -/
theorem c5_arbitrage_detector :
    (∀ (b : Block) (s : String),
      (detect_arbitrages b).filter (fun r => r.sender == s) =
        if s ∈ b.transactions.map Tx.fromAddr then
          (if 2 ≤ (txsOfSender b.transactions s).length ∧
              2 ≤ (arbSwapTxs b.transactions s).length ∧
              0 < arbProfit b.transactions s then
            [{ tx_hash := ((arbSwapTxs b.transactions s).head?.map Tx.hash).getD ""
               block_number := b.number
               sender := s
               profit_token := WETH
               profit_amount := arbProfit b.transactions s
               path := [] }]
          else [])
        else []) ∧
    detect_arbitrages arbScenarioBlock =
      [{ tx_hash := "0xt1", block_number := 7, sender := "0xS",
         profit_token := WETH, profit_amount := (1 + 2) * (5 / 1000),
         path := [] }] := by
  constructor
  · intro b s
    rw [detect_arbitrages,
        filterMap_filter_key (arbFor b) (arbFor_sender b) s _
          (nodup_dedupFirst _)]
    by_cases hmem : s ∈ b.transactions.map Tx.fromAddr
    · rw [if_pos ((mem_dedupFirst _ s).mpr hmem), if_pos hmem]
      simp only [arbFor]
      by_cases h1 : 2 ≤ (txsOfSender b.transactions s).length
      · by_cases h2 : 2 ≤ (arbSwapTxs b.transactions s).length
        · by_cases h3 : 0 < arbProfit b.transactions s
          · rw [if_pos h1, if_pos h2, if_pos h3, if_pos ⟨h1, h2, h3⟩]
            rfl
          · rw [if_pos h1, if_pos h2, if_neg h3,
                if_neg (fun h => h3 h.2.2)]
            rfl
        · rw [if_pos h1, if_neg h2, if_neg (fun h => h2 h.2.1)]
          rfl
      · rw [if_neg h1, if_neg (fun h => h1 h.1)]
        rfl
    · rw [if_neg (fun h => hmem ((mem_dedupFirst _ s).mp h)), if_neg hmem]
  · decide

/-- Witness for C5 on the scenario block: the filtered record list for
sender `0xS`. -/
theorem c5_witness :
    ((detect_arbitrages arbScenarioBlock).filter
      (fun r => r.sender == "0xS")).length = 1 := by
  rw [c5_arbitrage_detector.1 arbScenarioBlock "0xS"]
  decide

/-! Helper lemmas on the sandwich-window scans. -/

theorem senderMatchAt_iff (txs : List Tx) (s : String) (j : Nat) :
    j < txs.length →
    (senderMatchAt txs s j = true ↔
      ∃ t, txs.get? j = some t ∧ t.fromAddr = s) := by
  intro hj
  unfold senderMatchAt
  rw [List.get?_eq_getElem?]
  rcases List.getElem?_eq_some.mpr ⟨hj, rfl⟩ with ht
  rw [ht]
  simp [beq_iff_eq]

theorem scan_eq_none_iff (txs : List Tx) (idxs : List Nat) (s : String) :
    scanSameSender txs idxs s = none ↔
      ∀ j ∈ idxs, senderMatchAt txs s j = false := by
  unfold scanSameSender
  rw [Option.map_eq_none', List.find?_eq_none]
  simp

theorem scan_range'_eq_some (txs : List Tx) (s : String) (h : String) :
    ∀ (n a : Nat), scanSameSender txs (List.range' a n) s = some h →
      ∃ j, a ≤ j ∧ j < a + n ∧ senderMatchAt txs s j = true ∧
        h = hashAt txs j ∧
        ∀ k, a ≤ k → k < j → senderMatchAt txs s k = false := by
  intro n
  induction n with
  | zero => intro a hsc; simp [scanSameSender] at hsc
  | succ m ih =>
    intro a hsc
    rw [List.range'_succ] at hsc
    by_cases hm : senderMatchAt txs s a = true
    · refine ⟨a, le_refl a, by omega, hm, ?_, by omega⟩
      unfold scanSameSender at hsc
      rw [List.find?_cons_of_pos _ hm] at hsc
      exact (Option.some_inj.mp hsc).symm
    · have hsc' : scanSameSender txs (List.range' (a + 1) m) s = some h := by
        unfold scanSameSender at hsc ⊢
        rwa [List.find?_cons_of_neg _ hm] at hsc
      rcases ih (a + 1) hsc' with ⟨j, hj1, hj2, hj3, hj4, hj5⟩
      refine ⟨j, by omega, by omega, hj3, hj4, ?_⟩
      intro k hk1 hk2
      rcases Nat.eq_or_lt_of_le hk1 with rfl | hk1'
      · exact eq_false_of_ne_true hm
      · exact hj5 k hk1' hk2

theorem pyTruthy_scan_range' (txs : List Tx) (s : String) (a n : Nat)
    (hval : ∀ j, a ≤ j → j < a + n → j < txs.length)
    (hh : ∀ t ∈ txs, t.hash ≠ "") :
    pyTruthy (scanSameSender txs (List.range' a n) s) = true ↔
      ∃ j, a ≤ j ∧ j < a + n ∧ senderMatchAt txs s j = true := by
  constructor
  · intro htr
    cases hsc : scanSameSender txs (List.range' a n) s with
    | none => rw [hsc] at htr; simp [pyTruthy] at htr
    | some h =>
      rcases scan_range'_eq_some txs s h n a hsc with ⟨j, hj1, hj2, hj3, -, -⟩
      exact ⟨j, hj1, hj2, hj3⟩
  · rintro ⟨j, hj1, hj2, hj3⟩
    cases hsc : scanSameSender txs (List.range' a n) s with
    | none =>
      have := (scan_eq_none_iff txs _ s).mp hsc j
        (List.mem_range'_1.mpr ⟨hj1, hj2⟩)
      rw [this] at hj3
      exact absurd hj3 (by simp)
    | some h =>
      rcases scan_range'_eq_some txs s h n a hsc with ⟨j', hj'1, hj'2, hj'3, hj'4, -⟩
      have hjlt : j' < txs.length := hval j' hj'1 hj'2
      unfold hashAt at hj'4
      rw [List.get?_eq_getElem?, List.getElem?_eq_some.mpr ⟨hjlt, rfl⟩] at hj'4
      have hmem : txs[j'] ∈ txs := List.getElem_mem hjlt
      simp only [pyTruthy, hsc, Option.getD_some, ne_eq]
      rw [hj'4]
      simpa using hh _ hmem

/-- The C3 scenario: a 10-transaction block with sender `0xS` at
positions 2, 4 and 6; the position-4 transaction has gas price
120 gwei (and value 1 ETH), all others stay at 20 gwei. -/
def sandwichScenarioBlock : Block :=
  { number := 1, timestamp := 0, miner := "0xMiner",
    transactions :=
      [{ hash := "0xh0", fromAddr := "0xa0", toAddr := none, value := 0,
         gasPrice := 20000000000, receipt := none },
       { hash := "0xh1", fromAddr := "0xa1", toAddr := none, value := 0,
         gasPrice := 20000000000, receipt := none },
       { hash := "0xh2", fromAddr := "0xS", toAddr := none, value := 0,
         gasPrice := 20000000000, receipt := none },
       { hash := "0xh3", fromAddr := "0xa3", toAddr := none, value := 0,
         gasPrice := 20000000000, receipt := none },
       { hash := "0xh4", fromAddr := "0xS", toAddr := none,
         value := 1000000000000000000, gasPrice := 120000000000, receipt := none },
       { hash := "0xh5", fromAddr := "0xa5", toAddr := none, value := 0,
         gasPrice := 20000000000, receipt := none },
       { hash := "0xh6", fromAddr := "0xS", toAddr := none, value := 0,
         gasPrice := 20000000000, receipt := none },
       { hash := "0xh7", fromAddr := "0xa7", toAddr := none, value := 0,
         gasPrice := 20000000000, receipt := none },
       { hash := "0xh8", fromAddr := "0xa8", toAddr := none, value := 0,
         gasPrice := 20000000000, receipt := none },
       { hash := "0xh9", fromAddr := "0xa9", toAddr := none, value := 0,
         gasPrice := 20000000000, receipt := none }] }

/-- Claim C3. For blocks with non-empty transaction hashes: the target
at index `i` produces a sandwich record iff its gas price exceeds
50 gwei and a same-sender transaction exists in the 5-transaction
backward window or the 5-transaction forward window; the record's
profit is 1% of the target's value.  The spec's scenario block yields
exactly one record, for the position-4 transaction, with front-run
position 2 and back-run position 6 both set. -/
theorem c3_sandwich_detector :
    (∀ (b : Block) (i : Nat) (tx : Tx),
      (∀ t ∈ b.transactions, t.hash ≠ "") →
      b.transactions.get? i = some tx →
      (((sandwichAt b 5 i).isSome = true ↔
        ((tx.gasPrice : ℚ) / 10 ^ 9 > 50 ∧
         ((∃ j, i - 5 ≤ j ∧ j < i ∧
             ∃ t, b.transactions.get? j = some t ∧ t.fromAddr = tx.fromAddr) ∨
          (∃ j, i + 1 ≤ j ∧ j < min b.transactions.length (i + 6) ∧
             ∃ t, b.transactions.get? j = some t ∧ t.fromAddr = tx.fromAddr)))) ∧
       (∀ a, sandwichAt b 5 i = some a →
         a.profit = ethOfWei tx.value * (1 / 100) ∧
         a.target_tx = tx.hash ∧ a.tx_hash = tx.hash ∧
         a.attacker = tx.fromAddr ∧ a.block_number = b.number))) ∧
    detect_sandwich_attacks 5 sandwichScenarioBlock =
      [{ tx_hash := "0xh4", block_number := 1, attacker := "0xS",
         target_tx := "0xh4", front_run_tx := some "0xh2",
         back_run_tx := some "0xh6", profit := 1 / 100 }] := by
  constructor
  · intro b i tx hh ht
    have hi : i < b.transactions.length := by
      rw [List.get?_eq_getElem?] at ht
      exact (List.getElem?_eq_some.mp ht).1
    have hback :
        pyTruthy (scanSameSender b.transactions (backWindow i 5) tx.fromAddr) = true ↔
          ∃ j, i - 5 ≤ j ∧ j < i ∧
            ∃ t, b.transactions.get? j = some t ∧ t.fromAddr = tx.fromAddr := by
      rw [backWindow,
          pyTruthy_scan_range' b.transactions tx.fromAddr (i - 5) (i - (i - 5))
            (fun j _ h2 => by omega) hh]
      constructor
      · rintro ⟨j, h1, h2, h3⟩
        exact ⟨j, h1, by omega,
          (senderMatchAt_iff b.transactions tx.fromAddr j (by omega)).mp h3⟩
      · rintro ⟨j, h1, h2, h3⟩
        exact ⟨j, h1, by omega,
          (senderMatchAt_iff b.transactions tx.fromAddr j (by omega)).mpr h3⟩
    have hfront :
        pyTruthy (scanSameSender b.transactions
            (frontWindow b.transactions.length i 5) tx.fromAddr) = true ↔
          ∃ j, i + 1 ≤ j ∧ j < min b.transactions.length (i + 6) ∧
            ∃ t, b.transactions.get? j = some t ∧ t.fromAddr = tx.fromAddr := by
      rw [frontWindow,
          pyTruthy_scan_range' b.transactions tx.fromAddr (i + 1)
            (min b.transactions.length (i + 5 + 1) - (i + 1))
            (fun j _ h2 => by omega) hh]
      constructor
      · rintro ⟨j, h1, h2, h3⟩
        exact ⟨j, h1, by omega,
          (senderMatchAt_iff b.transactions tx.fromAddr j (by omega)).mp h3⟩
      · rintro ⟨j, h1, h2, h3⟩
        exact ⟨j, h1, by omega,
          (senderMatchAt_iff b.transactions tx.fromAddr j (by omega)).mpr h3⟩
    by_cases hg : ((tx.gasPrice : ℚ) / 10 ^ 9) > 50
    · constructor
      · by_cases ho :
          pyTruthy (scanSameSender b.transactions (backWindow i 5) tx.fromAddr) = true ∨
          pyTruthy (scanSameSender b.transactions
            (frontWindow b.transactions.length i 5) tx.fromAddr) = true
        · simp only [sandwichAt, ht, if_pos hg, if_pos ho, Option.isSome_some,
            true_iff]
          refine ⟨hg, ?_⟩
          rcases ho with h | h
          · exact Or.inl (hback.mp h)
          · exact Or.inr (hfront.mp h)
        · simp only [sandwichAt, ht, if_pos hg, if_neg ho, Option.isSome_none,
            Bool.false_eq_true, false_iff]
          rintro ⟨-, hfound | hfound⟩
          · exact ho (Or.inl (hback.mpr hfound))
          · exact ho (Or.inr (hfront.mpr hfound))
      · intro a ha
        simp only [sandwichAt, ht, if_pos hg] at ha
        by_cases ho :
          pyTruthy (scanSameSender b.transactions (backWindow i 5) tx.fromAddr) = true ∨
          pyTruthy (scanSameSender b.transactions
            (frontWindow b.transactions.length i 5) tx.fromAddr) = true
        · rw [if_pos ho] at ha
          rw [← Option.some_inj.mp ha]
          exact ⟨rfl, rfl, rfl, rfl, rfl⟩
        · rw [if_neg ho] at ha
          exact absurd ha (by simp)
    · constructor
      · simp only [sandwichAt, ht, if_neg hg, Option.isSome_none,
          Bool.false_eq_true, false_iff]
        rintro ⟨hgas, -⟩
        exact hg hgas
      · intro a ha
        simp only [sandwichAt, ht, if_neg hg] at ha
        exact absurd ha (by simp)
  · decide

/-- Witness for C3: the scenario target at index 4 is detected. -/
theorem c3_witness :
    (sandwichAt sandwichScenarioBlock 5 4).isSome = true :=
  ((c3_sandwich_detector.1 sandwichScenarioBlock 4
      { hash := "0xh4", fromAddr := "0xS", toAddr := none,
        value := 1000000000000000000, gasPrice := 120000000000, receipt := none }
      (by decide) (by decide)).1).mpr
    ⟨by norm_num, Or.inl ⟨2, by omega, by omega,
      { hash := "0xh2", fromAddr := "0xS", toAddr := none, value := 0,
        gasPrice := 20000000000, receipt := none }, by decide, rfl⟩⟩

/-- Claim C10. When a sandwich record is emitted, its `front_run_tx` is
the hash of the *earliest* same-sender transaction in the 5-transaction
backward window (the backward scan runs from `i-5` upward and stops at
the first match), and its `back_run_tx` is the hash of the *nearest*
following same-sender transaction in the forward window. -/
theorem c10_front_back_choice (b : Block) (i : Nat) (tx : Tx)
    (a : SandwichAttack)
    (ht : b.transactions.get? i = some tx)
    (ha : sandwichAt b 5 i = some a) :
    (∀ h, a.front_run_tx = some h →
      ∃ j, i - 5 ≤ j ∧ j < i ∧ h = hashAt b.transactions j ∧
        senderMatchAt b.transactions tx.fromAddr j = true ∧
        ∀ k, i - 5 ≤ k → k < j →
          senderMatchAt b.transactions tx.fromAddr k = false) ∧
    (∀ h, a.back_run_tx = some h →
      ∃ j, i + 1 ≤ j ∧ j < min b.transactions.length (i + 6) ∧
        h = hashAt b.transactions j ∧
        senderMatchAt b.transactions tx.fromAddr j = true ∧
        ∀ k, i + 1 ≤ k → k < j →
          senderMatchAt b.transactions tx.fromAddr k = false) := by
  simp only [sandwichAt, ht] at ha
  by_cases hg : ((tx.gasPrice : ℚ) / 10 ^ 9) > 50
  · rw [if_pos hg] at ha
    by_cases ho :
      pyTruthy (scanSameSender b.transactions (backWindow i 5) tx.fromAddr) = true ∨
      pyTruthy (scanSameSender b.transactions
        (frontWindow b.transactions.length i 5) tx.fromAddr) = true
    · rw [if_pos ho] at ha
      rw [← Option.some_inj.mp ha]
      constructor
      · intro h hfr
        by_cases htr :
            pyTruthy (scanSameSender b.transactions (backWindow i 5) tx.fromAddr) = true
        · simp only [if_pos htr] at hfr
          rcases scan_range'_eq_some b.transactions tx.fromAddr h _ _ hfr with
            ⟨j, h1, h2, h3, h4, h5⟩
          exact ⟨j, h1, by omega, h4, h3, fun k hk1 hk2 => h5 k hk1 hk2⟩
        · simp only [if_neg htr] at hfr
          exact absurd hfr (by simp)
      · intro h hbk
        by_cases htr :
            pyTruthy (scanSameSender b.transactions
              (frontWindow b.transactions.length i 5) tx.fromAddr) = true
        · simp only [if_pos htr] at hbk
          rcases scan_range'_eq_some b.transactions tx.fromAddr h _ _ hbk with
            ⟨j, h1, h2, h3, h4, h5⟩
          exact ⟨j, h1, by omega, h4, h3, fun k hk1 hk2 => h5 k hk1 hk2⟩
        · simp only [if_neg htr] at hbk
          exact absurd hbk (by simp)
    · rw [if_neg ho] at ha
      exact absurd ha (by simp)
  · rw [if_neg hg] at ha
    exact absurd ha (by simp)

/-- Witness for C10 at the scenario block's position-4 target: its
front-run hash is that of position 2, the earliest same-sender
transaction in the window. -/
theorem c10_witness :
    ∃ j, 4 - 5 ≤ j ∧ j < 4 ∧
      "0xh2" = hashAt sandwichScenarioBlock.transactions j ∧
      senderMatchAt sandwichScenarioBlock.transactions "0xS" j = true ∧
      ∀ k, 4 - 5 ≤ k → k < j →
        senderMatchAt sandwichScenarioBlock.transactions "0xS" k = false :=
  (c10_front_back_choice sandwichScenarioBlock 4
      { hash := "0xh4", fromAddr := "0xS", toAddr := none,
        value := 1000000000000000000, gasPrice := 120000000000, receipt := none }
      { tx_hash := "0xh4", block_number := 1, attacker := "0xS",
        target_tx := "0xh4", front_run_tx := some "0xh2",
        back_run_tx := some "0xh6", profit := 1 / 100 }
      (by decide) (by decide)).1 "0xh2" rfl

/-- Pointwise `isSome`-monotone `filterMap`s have monotone lengths. -/
theorem filterMap_length_mono {α β : Type} (f g : α → Option β) :
    ∀ l : List α, (∀ x ∈ l, (f x).isSome = true → (g x).isSome = true) →
      (l.filterMap f).length ≤ (l.filterMap g).length := by
  intro l
  induction l with
  | nil => intro _; simp
  | cons x xs ih =>
    intro h
    have hxs := ih (fun y hy => h y (List.mem_cons_of_mem _ hy))
    rw [List.filterMap_cons, List.filterMap_cons]
    cases hf : f x with
    | none =>
      cases hg : g x with
      | none => exact hxs
      | some c => simpa using Nat.le_succ_of_le hxs
    | some c =>
      cases hg : g x with
      | none =>
        have := h x (List.mem_cons_self _ _) (by rw [hf]; rfl)
        rw [hg] at this
        exact absurd this (by simp)
      | some d => simpa using Nat.succ_le_succ hxs

/-- The C4 counterexample block: sender `0xS` occupies positions 0, 2
and (as the high-gas target) 6, so the width-5 backward scan finds
position 2 while the width-6 scan finds position 0, changing the
emitted record. -/
def windowShiftBlock : Block :=
  { number := 1, timestamp := 0, miner := "0xMiner",
    transactions :=
      [{ hash := "0xh0", fromAddr := "0xS", toAddr := none, value := 0,
         gasPrice := 20000000000, receipt := none },
       { hash := "0xh1", fromAddr := "0xa1", toAddr := none, value := 0,
         gasPrice := 20000000000, receipt := none },
       { hash := "0xh2", fromAddr := "0xS", toAddr := none, value := 0,
         gasPrice := 20000000000, receipt := none },
       { hash := "0xh3", fromAddr := "0xa3", toAddr := none, value := 0,
         gasPrice := 20000000000, receipt := none },
       { hash := "0xh4", fromAddr := "0xa4", toAddr := none, value := 0,
         gasPrice := 20000000000, receipt := none },
       { hash := "0xh5", fromAddr := "0xa5", toAddr := none, value := 0,
         gasPrice := 20000000000, receipt := none },
       { hash := "0xh6", fromAddr := "0xS", toAddr := none, value := 0,
         gasPrice := 120000000000, receipt := none }] }

/-- Claim C4, counterexample. Widening the window from 5 to 6 *changes*
a detected record instead of keeping it: the width-5 record (front-run
`0xh2`) is not among the width-6 records (front-run `0xh0`), so the
record sets are not monotone under widening. -/
theorem c4_counterexample :
    ∃ a ∈ detect_sandwich_attacks 5 windowShiftBlock,
      a ∉ detect_sandwich_attacks 6 windowShiftBlock := by decide

/-- Claim C4, amended. Widening the window beyond 5 cannot remove a
*detection*: every target index flagged with window 5 is still flagged
with any window `w ≥ 5` (so the number of detected records cannot
decrease), though the recorded front-run/back-run hashes may change,
as the counterexample shows.  Stated for blocks whose transaction
hashes are non-empty. -/
theorem c4_window_monotonic (b : Block) (w : Nat)
    (hh : ∀ t ∈ b.transactions, t.hash ≠ "") (hw : 5 ≤ w) :
    (∀ i, (sandwichAt b 5 i).isSome = true → (sandwichAt b w i).isSome = true) ∧
    (detect_sandwich_attacks 5 b).length ≤ (detect_sandwich_attacks w b).length := by
  have hmono : ∀ i, (sandwichAt b 5 i).isSome = true →
      (sandwichAt b w i).isSome = true := by
    intro i h5
    cases ht : b.transactions.get? i with
    | none => simp only [sandwichAt, ht, Option.isSome_none] at h5; exact absurd h5 (by simp)
    | some tx =>
      have hi : i < b.transactions.length := by
        rw [List.get?_eq_getElem?] at ht
        exact (List.getElem?_eq_some.mp ht).1
      simp only [sandwichAt, ht] at h5 ⊢
      by_cases hg : ((tx.gasPrice : ℚ) / 10 ^ 9) > 50
      · rw [if_pos hg] at h5 ⊢
        by_cases ho :
          pyTruthy (scanSameSender b.transactions (backWindow i 5) tx.fromAddr) = true ∨
          pyTruthy (scanSameSender b.transactions
            (frontWindow b.transactions.length i 5) tx.fromAddr) = true
        · have how :
            pyTruthy (scanSameSender b.transactions (backWindow i w) tx.fromAddr) = true ∨
            pyTruthy (scanSameSender b.transactions
              (frontWindow b.transactions.length i w) tx.fromAddr) = true := by
            rcases ho with h | h
            · left
              rw [backWindow] at h ⊢
              rcases (pyTruthy_scan_range' b.transactions tx.fromAddr (i - 5)
                  (i - (i - 5)) (fun j _ h2 => by omega) hh).mp h with ⟨j, h1, h2, h3⟩
              exact (pyTruthy_scan_range' b.transactions tx.fromAddr (i - w)
                  (i - (i - w)) (fun j _ h2 => by omega) hh).mpr
                ⟨j, by omega, by omega, h3⟩
            · right
              rw [frontWindow] at h ⊢
              rcases (pyTruthy_scan_range' b.transactions tx.fromAddr (i + 1)
                  (min b.transactions.length (i + 5 + 1) - (i + 1))
                  (fun j _ h2 => by omega) hh).mp h with ⟨j, h1, h2, h3⟩
              exact (pyTruthy_scan_range' b.transactions tx.fromAddr (i + 1)
                  (min b.transactions.length (i + w + 1) - (i + 1))
                  (fun j _ h2 => by omega) hh).mpr
                ⟨j, by omega, by omega, h3⟩
          rw [if_pos how]
          rfl
        · rw [if_neg ho] at h5
          exact absurd h5 (by simp)
      · rw [if_neg hg] at h5
        exact absurd h5 (by simp)
  refine ⟨hmono, ?_⟩
  unfold detect_sandwich_attacks
  exact filterMap_length_mono _ _ _ (fun i _ => hmono i)

/-- Witness for C4 on the counterexample block with window 6. -/
theorem c4_witness :
    (detect_sandwich_attacks 5 windowShiftBlock).length ≤
      (detect_sandwich_attacks 6 windowShiftBlock).length :=
  (c4_window_monotonic windowShiftBlock 6 (by decide) (by decide)).2

/-! Helper lemmas for the comparator. -/

/-- A key absent from an association list is absent from its
positive-filtered difference list. -/
theorem find?_filterMap_of_not_mem (g : String → ℚ → DiffEntry) (k : String)
    (l : List (String × ℚ)) (hk : k ∉ l.map Prod.fst) :
    ((l.filterMap (fun kv =>
        if kv.2 > 0 then some (kv.1, g kv.1 kv.2) else none)).find?
      (fun p => p.1 == k)) = none := by
  rw [List.find?_eq_none]
  intro p hp
  rcases List.mem_filterMap.mp hp with ⟨kv, hkv, hsome⟩
  by_cases hv : kv.2 > 0
  · rw [if_pos hv] at hsome
    have : p.1 = kv.1 := by rw [← Option.some_inj.mp hsome]
    simp only [this, beq_iff_eq]
    intro h
    exact hk (h ▸ List.mem_map_of_mem Prod.fst hkv)
  · rw [if_neg hv] at hsome
    exact absurd hsome (by simp)

/-- Association lookup through the positive-filtered difference list:
present with the mapped entry for a positive value, absent otherwise,
for distinct keys. -/
theorem find?_filterMap_kv (g : String → ℚ → DiffEntry) (k : String) (v : ℚ) :
    ∀ l : List (String × ℚ), (l.map Prod.fst).Nodup → (k, v) ∈ l →
      ((l.filterMap (fun kv =>
          if kv.2 > 0 then some (kv.1, g kv.1 kv.2) else none)).find?
        (fun p => p.1 == k)) =
        if 0 < v then some (k, g k v) else none := by
  intro l
  induction l with
  | nil => intro _ h; exact absurd h (by simp)
  | cons kv' l' ih =>
    obtain ⟨k', v'⟩ := kv'
    intro hnd hmem
    rw [List.map_cons] at hnd
    rcases List.nodup_cons.mp hnd with ⟨hk', hnd'⟩
    rcases List.mem_cons.mp hmem with heq | htail
    · injection heq with h1 h2
      subst h1; subst h2
      by_cases hv : 0 < v
      · rw [if_pos hv]
        simp only [List.filterMap_cons, if_pos (show (k, v).2 > 0 from hv)]
        exact List.find?_cons_of_pos _ (by simp)
      · rw [if_neg hv]
        simp only [List.filterMap_cons, if_neg (show ¬ (k, v).2 > 0 from hv)]
        exact find?_filterMap_of_not_mem g k l' hk'
    · have hkmem : k ∈ l'.map Prod.fst := List.mem_map_of_mem Prod.fst htail
      have hkne : k' ≠ k := fun h => hk' (by rw [h]; exact hkmem)
      by_cases hv' : (k', v').2 > 0
      · simp only [List.filterMap_cons, if_pos hv']
        rw [List.find?_cons_of_neg _ (by simpa using hkne)]
        exact ih hnd' htail
      · simp only [List.filterMap_cons, if_neg hv']
        exact ih hnd' htail

/-- The metric keys of a statistics dictionary are distinct. -/
theorem stats_kv_keys_nodup (l : List AnalysisRecord) :
    ((stats_kv l).map Prod.fst).Nodup := by
  unfold stats_kv
  cases calculate_statistics l with
  | none => simp
  | some st =>
    simp only [List.map_cons, List.map_nil]
    decide

/-- An analysis entry with no MEV at all. -/
def zeroMevAnalysis : AnalysisRecord :=
  { total_mev := 0, mev_per_tx := 0, miner_payments := [], swaps := [],
    arbitrages := [], sandwich_attacks := [] }

/-- An analysis entry with positive MEV. -/
def posMevAnalysis : AnalysisRecord :=
  { total_mev := 3, mev_per_tx := 1 / 2, miner_payments := [3], swaps := [],
    arbitrages := [], sandwich_attacks := [] }

/-- Claim C2, counterexample. With an Ethereum dataset whose `total_mev`
is 0, the metric appears in the Ethereum statistics but the
`differences` report contains *no* entry for it — the reduction is
omitted, not reported as 0 as claimed. -/
theorem c2_counterexample :
    ("total_mev", (0 : ℚ)) ∈ stats_kv [zeroMevAnalysis] ∧
    diffLookup [zeroMevAnalysis] [zeroMevAnalysis] "total_mev" = none := by
  decide

/-- Claim C2, amended. A metric with strictly positive Ethereum value is
reported in `differences` with reduction `(eth − p2s) / eth × 100`; a
metric whose Ethereum value is not strictly positive is *omitted* from
`differences` (no entry, never a division by zero).  The per-activity
`analyze_mev_types` reductions do report 0 when the Ethereum total is
0 (`total_pct`) or the Ethereum value list is empty (`count_pct`), and
the percentage formula otherwise. -/
theorem c2_reduction_reporting :
    (∀ (eth p2s : List AnalysisRecord) (k : String) (v : ℚ),
      (k, v) ∈ stats_kv eth → 0 < v →
      diffLookup eth p2s k =
        some { ethereum := v
               p2s := statLookup (stats_kv p2s) k
               reduction := ((v - statLookup (stats_kv p2s) k) / v) * 100
               reduction_abs := v - statLookup (stats_kv p2s) k }) ∧
    (∀ (eth p2s : List AnalysisRecord) (k : String) (v : ℚ),
      (k, v) ∈ stats_kv eth → ¬ 0 < v →
      diffLookup eth p2s k = none) ∧
    (∀ (eth p2s : List AnalysisRecord) (t : MevType),
      ((analyze_mev_type eth p2s t).reduction.total_pct =
        if 0 < (typeValues eth t).sum then
          (((typeValues eth t).sum - (typeValues p2s t).sum) /
            (typeValues eth t).sum) * 100
        else 0) ∧
      ((typeValues eth t).sum = 0 →
        (analyze_mev_type eth p2s t).reduction.total_pct = 0) ∧
      (typeValues eth t = [] →
        (analyze_mev_type eth p2s t).reduction.count_pct = 0) ∧
      (typeValues eth t ≠ [] →
        (analyze_mev_type eth p2s t).reduction.count_pct =
          ((((typeValues eth t).length : ℚ) - ((typeValues p2s t).length : ℚ)) /
            ((typeValues eth t).length : ℚ)) * 100)) := by
  refine ⟨?_, ?_, ?_⟩
  · intro eth p2s k v hmem hv
    have h := find?_filterMap_kv
      (fun k v => { ethereum := v
                    p2s := statLookup (stats_kv p2s) k
                    reduction := ((v - statLookup (stats_kv p2s) k) / v) * 100
                    reduction_abs := v - statLookup (stats_kv p2s) k })
      k v (stats_kv eth) (stats_kv_keys_nodup eth) hmem
    rw [if_pos hv] at h
    unfold diffLookup compare_differences
    rw [h]
    rfl
  · intro eth p2s k v hmem hv
    have h := find?_filterMap_kv
      (fun k v => { ethereum := v
                    p2s := statLookup (stats_kv p2s) k
                    reduction := ((v - statLookup (stats_kv p2s) k) / v) * 100
                    reduction_abs := v - statLookup (stats_kv p2s) k })
      k v (stats_kv eth) (stats_kv_keys_nodup eth) hmem
    rw [if_neg hv] at h
    unfold diffLookup compare_differences
    rw [h]
    rfl
  · intro eth p2s t
    refine ⟨rfl, ?_, ?_, ?_⟩
    · intro h0
      simp only [analyze_mev_type]
      rw [if_neg (by rw [h0]; exact lt_irrefl 0)]
    · intro he
      simp only [analyze_mev_type]
      rw [if_pos he]
    · intro he
      simp only [analyze_mev_type]
      rw [if_neg he]

/-- Witness for C2: a concrete positive metric is reported. -/
theorem c2_witness :
    (diffLookup [posMevAnalysis] [zeroMevAnalysis] "total_mev").isSome = true := by
  rw [c2_reduction_reporting.1 [posMevAnalysis] [zeroMevAnalysis] "total_mev" 3
    (by decide) (by decide)]
  rfl

/-- Claim C8. The mean and median MEV-per-transaction statistics are
computed over the strictly positive `mev_per_tx` sample only: the
sample is the positive filter of the per-block values, appending a
zero-MEV block leaves both statistics unchanged, and when no value is
positive both are 0 (no exception; an empty analysis list yields the
empty dictionary before any statistic is computed). -/
theorem c8_positive_sample_statistics :
    (∀ (analyses : List AnalysisRecord) (st : Stats),
      calculate_statistics analyses = some st →
      st.avg_mev_per_tx = pyMean (mev_per_tx_values analyses) ∧
      st.median_mev_per_tx = pyMedian (mev_per_tx_values analyses)) ∧
    (∀ (analyses : List AnalysisRecord) (a : AnalysisRecord)
       (st st' : Stats),
      a.mev_per_tx = 0 →
      calculate_statistics analyses = some st →
      calculate_statistics (analyses ++ [a]) = some st' →
      st'.avg_mev_per_tx = st.avg_mev_per_tx ∧
      st'.median_mev_per_tx = st.median_mev_per_tx) ∧
    (∀ (analyses : List AnalysisRecord) (st : Stats),
      calculate_statistics analyses = some st →
      (∀ r ∈ analyses, ¬ 0 < r.mev_per_tx) →
      st.avg_mev_per_tx = 0 ∧ st.median_mev_per_tx = 0) ∧
    calculate_statistics [] = none := by
  have hproj : ∀ (analyses : List AnalysisRecord) (st : Stats),
      calculate_statistics analyses = some st →
      st.avg_mev_per_tx = pyMean (mev_per_tx_values analyses) ∧
      st.median_mev_per_tx = pyMedian (mev_per_tx_values analyses) := by
    intro analyses st hst
    by_cases hne : analyses = []
    · rw [hne] at hst
      simp [calculate_statistics] at hst
    · simp only [calculate_statistics, if_neg hne] at hst
      rw [← Option.some_inj.mp hst]
      exact ⟨rfl, rfl⟩
  refine ⟨hproj, ?_, ?_, rfl⟩
  · intro analyses a st st' ha hst hst'
    have hv : mev_per_tx_values (analyses ++ [a]) = mev_per_tx_values analyses := by
      unfold mev_per_tx_values
      rw [List.map_append, List.filter_append]
      simp [ha]
    rcases hproj analyses st hst with ⟨h1, h2⟩
    rcases hproj (analyses ++ [a]) st' hst' with ⟨h1', h2'⟩
    rw [h1, h1', h2, h2', hv]
    exact ⟨rfl, rfl⟩
  · intro analyses st hst hnp
    have hv : mev_per_tx_values analyses = [] := by
      unfold mev_per_tx_values
      rw [List.filter_eq_nil_iff]
      intro x hx
      rcases List.mem_map.mp hx with ⟨r, hr, rfl⟩
      simpa using hnp r hr
    rcases hproj analyses st hst with ⟨h1, h2⟩
    rw [h1, h2, hv]
    exact ⟨rfl, rfl⟩

/-- Witness for C8: a dataset with one positive and one zero entry has
mean and median `1/2`, the single positive sample. -/
theorem c8_witness :
    ∃ st : Stats,
      calculate_statistics [posMevAnalysis, zeroMevAnalysis] = some st ∧
      st.avg_mev_per_tx = 1 / 2 ∧ st.median_mev_per_tx = 1 / 2 := by
  cases hst : calculate_statistics [posMevAnalysis, zeroMevAnalysis] with
  | none => exact absurd hst (by decide)
  | some st =>
    rcases c8_positive_sample_statistics.1 _ st hst with ⟨h1, h2⟩
    refine ⟨st, rfl, ?_, ?_⟩
    · rw [h1]; decide
    · rw [h2]; decide

/-- A well-formed raw transaction: hex-string value, missing gas and
gas-price fields. -/
def goodRawTx : RawTx :=
  { hash := some "0xa", fromHash := some "0xf", toHash := some "0xt",
    value := .rStr "0x10", gas := .absent, gas_price := .absent,
    nonce := some 1 }

/-- A malformed raw transaction: its `value` string is not a valid
base-16 literal, so `int(value, 16)` raises. -/
def badRawTx : RawTx :=
  { hash := some "0xb", fromHash := some "0xf", toHash := some "0xt",
    value := .rStr "zz", gas := .absent, gas_price := .absent,
    nonce := some 2 }

/-- A raw block containing one good and one malformed transaction. -/
def mixedRawBlock : RawBlock :=
  { timestamp := some 5, size := none, base_fee_per_gas := none,
    gas_used := none, gas_limit := none,
    transactions := some [goodRawTx, badRawTx] }

/-- Claim C9, counterexample. A block with one malformed transaction is
not returned with just that transaction dropped: the exception escapes
the whole transaction loop and `fetch_block` falls back to a synthetic
block (modelled as `none`), discarding the good transaction too — the
spec-modelled drop-only-that-transaction behaviour would instead keep
the good transaction. -/
theorem c9_counterexample :
    normalizeTx 5 badRawTx = none ∧
    process_block 99 1 mixedRawBlock = none ∧
    extractTransactions_dropMalformed 5 [goodRawTx, badRawTx] =
      [{ hash := "0xa", fromAddr := "0xf", toAddr := "0xt", value := 16,
         gas := 21000, gasPrice := 20000000000, nonce := 1, timestamp := 5 }] := by
  decide

/-- Claim C9, amended. The normalizer coerces numeric value/gas fields
to integers whether encoded as base-16 strings or native integers,
defaults a missing gas limit to `21000` and a missing gas price to
`20000000000` wei (20 gwei), and keeps transactions in order when all
normalize; but a malformed transaction makes the whole block's
extraction fail, so `fetch_block` falls back to a synthetic block
instead of dropping only that transaction. -/
theorem c9_normalizer (s : String) (n : Nat) :
    (coerceValue (.rInt n) = some n ∧ coerceGas (.rInt n) = some n ∧
     coerceGasPrice (.rInt n) = some n) ∧
    (coerceValue (.rStr s) = int16? s ∧ coerceGas (.rStr s) = int16? s ∧
     coerceGasPrice (.rStr s) = int16? s) ∧
    (coerceValue .absent = some 0 ∧ coerceGas .absent = some 21000 ∧
     coerceGasPrice .absent = some 20000000000) ∧
    (int16? "0x1a" = some 26 ∧ int16? "ff" = some 255 ∧ int16? "zz" = none) ∧
    (∀ (ts : Nat) (txs : List RawTx),
      (∃ tx ∈ txs, normalizeTx ts tx = none) →
      extractTransactions ts txs = none) ∧
    (∀ (ts : Nat) (txs : List RawTx),
      (∀ tx ∈ txs, normalizeTx ts tx ≠ none) →
      extractTransactions ts txs = some (txs.filterMap (normalizeTx ts))) ∧
    (∀ (now bn : Nat) (bd : RawBlock),
      (∃ tx ∈ (bd.transactions.getD []).take 200,
        normalizeTx (bd.timestamp.getD now) tx = none) →
      process_block now bn bd = none) := by
  have habort : ∀ (ts : Nat) (txs : List RawTx),
      (∃ tx ∈ txs, normalizeTx ts tx = none) →
      extractTransactions ts txs = none := by
    intro ts txs
    induction txs with
    | nil => rintro ⟨tx, h, -⟩; exact absurd h (by simp)
    | cons t rest ih =>
      rintro ⟨tx, hmem, hnone⟩
      rcases List.mem_cons.mp hmem with rfl | hmem'
      · rw [extractTransactions, hnone]
      · rw [extractTransactions]
        cases hn : normalizeTx ts t with
        | none => rfl
        | some nt => rw [ih ⟨tx, hmem', hnone⟩]; rfl
  have hkeep : ∀ (ts : Nat) (txs : List RawTx),
      (∀ tx ∈ txs, normalizeTx ts tx ≠ none) →
      extractTransactions ts txs = some (txs.filterMap (normalizeTx ts)) := by
    intro ts txs
    induction txs with
    | nil => intro _; rfl
    | cons t rest ih =>
      intro hall
      cases hn : normalizeTx ts t with
      | none => exact absurd hn (hall t (List.mem_cons_self _ _))
      | some nt =>
        rw [extractTransactions, hn,
            ih (fun tx h => hall tx (List.mem_cons_of_mem _ h)),
            List.filterMap_cons, hn]
        rfl
  refine ⟨⟨rfl, rfl, rfl⟩, ⟨rfl, rfl, rfl⟩, ⟨rfl, rfl, rfl⟩,
    ⟨by decide, by decide, by decide⟩, habort, hkeep, ?_⟩
  intro now bn bd hex
  simp only [process_block]
  rw [habort _ _ hex]

/-- Witness for C9: the abort clause applied to the concrete mixed
list. -/
theorem c9_witness :
    extractTransactions 5 [goodRawTx, badRawTx] = none :=
  (c9_normalizer "" 0).2.2.2.2.1 5 [goodRawTx, badRawTx]
    ⟨badRawTx, by decide, by decide⟩
